import Mathlib

/-!
Verification of the PitchPerfectly live-scoring frontend.

The definitions below are shallow embeddings of the JavaScript source:
rational numbers stand for JS floating-point values, `Option` models the
early-return paths, and JS truthiness tests (`x && y`, `v || default`) are
modelled explicitly where they matter (a `0` value is falsy).
-/

namespace PitchPerfectly

/-! ## Real-time scorer (src/frontend/src/components/LiveHUD.jsx, calculateScoringMetrics) -/

/-- The slice of the reference document the scorer reads: `hopLength`,
`sampleRate` and `refPitchHz` (a `0` stored in the first two models a
missing/falsy field, which the code replaces by its default). -/
structure RefData where
  hopLength : ℚ
  sampleRate : ℚ
  refPitchHz : List ℚ
deriving DecidableEq

/-- Everything `calculateScoringMetrics` reads: the worklet frame
(`f0`, `energy`, `confidence`), the component state it closes over
(`currentTime`, `referenceData`, `scoringEnabled`, `beats`) and the parts of
`stats` it consults (`stats.combo || 0` and `stats.motionScore || 0`). -/
structure ScorerInput where
  f0 : ℚ
  energy : ℚ
  confidence : ℚ
  currentTime : ℚ
  referenceData : Option RefData
  scoringEnabled : Bool
  beats : List ℚ
  statsCombo : ℚ
  motionScore : ℚ

/-- The record returned on the scoring path (reference data loaded and
scoring enabled). -/
structure ScoredStats where
  pitch : ℚ
  confidence : ℚ
  energy : ℚ
  pitchScore : ℚ
  rhythmScore : ℚ
  energyScore : ℚ
  totalScore : ℚ
  onBeat : Bool
  timingErr : ℚ
  combo : ℚ
deriving DecidableEq

/-- JS `referenceData.hopLength || 512`. -/
def effHopLength (rd : RefData) : ℚ := if rd.hopLength = 0 then 512 else rd.hopLength

/-- JS `referenceData.sampleRate || 22050`. -/
def effSampleRate (rd : RefData) : ℚ := if rd.sampleRate = 0 then 22050 else rd.sampleRate

/-- `Math.floor(currentTimeMs * sampleRate / hopSize)` with
`currentTimeMs = currentTime * 1000`. -/
def frameIndexOf (t : ℚ) (rd : RefData) : ℤ :=
  ⌊t * 1000 * effSampleRate rd / effHopLength rd⌋

/-- `referenceData.refPitchHz[frameIndex]`: a negative or out-of-range index
reads `undefined`, which fails the later `refPitch > 0` test exactly as a
stored `0` would. -/
def refPitchAt (rd : RefData) (t : ℚ) : ℚ :=
  let fi := frameIndexOf t rd
  if 0 ≤ fi then rd.refPitchHz.getD fi.toNat 0 else 0

/-- The pitch-scoring block: when the frame index is in range and `f0 > 0`
and the reference pitch is positive, the score is
`Math.max(0, 1 - pitchError * 2)` with `pitchError = |f0 - refPitch| / refPitch`. -/
def pitchScoreRaw (f0 t : ℚ) (rd : RefData) : ℚ :=
  if frameIndexOf t rd < (rd.refPitchHz.length : ℤ) ∧ 0 < f0 then
    let rp := refPitchAt rd t
    if 0 < rp then max 0 (1 - |f0 - rp| / rp * 2) else 0
  else 0

/-- JS truthiness of a number held in an `Option`: `undefined` and `0` are
both falsy. -/
def truthyQ : Option ℚ → Option ℚ
  | none => none
  | some x => if x = 0 then none else some x

/-- The rhythm-scoring block, returning `(onBeat, rhythmScore, timingErr)`.
`nextBeat` is `beats.find(b => b > t)`, `prevBeat` is
`beats.filter(b => b <= t).pop()`, and both are then tested for JS
truthiness (`if (nextBeat && prevBeat)`). The on-beat test is the source's
`beatPosition >= (1 - beatTolerance) && beatPosition <= beatTolerance`
with `beatTolerance = 0.2`. -/
def rhythmRaw (t : ℚ) (beats : List ℚ) : Bool × ℚ × ℚ :=
  if beats = [] then (false, 0, 0)
  else
    match truthyQ (beats.find? fun b => decide (t < b)),
          truthyQ ((beats.filter fun b => decide (b ≤ t)).getLast?) with
    | some nb, some pb =>
      let beatInterval := nb - pb
      let beatPosition := (t - pb) / beatInterval
      if 1 - 2/10 ≤ beatPosition ∧ beatPosition ≤ 2/10 then (true, 1, 0)
      else
        let te := min |beatPosition - 1/2| (1/2)
        (false, max 0 (1 - te * 2), te)
    | _, _ => (false, 0, 0)

/-- `Math.min(energy / 0.5, 1.0)`. -/
def energyScoreRaw (energy : ℚ) : ℚ := min (energy / (1/2)) 1

/-- The whole of `calculateScoringMetrics`: `none` models the early return
`{ pitch: f0, confidence, energy }` taken when no reference data is loaded
or scoring is disabled; otherwise the full scored record is produced, with
sub-scores scaled by 100 and
`combo = onBeat ? (stats.combo || 0) + 1 : 0`. -/
def calculateScoringMetrics (inp : ScorerInput) : Option ScoredStats :=
  match inp.referenceData, inp.scoringEnabled with
  | some rd, true =>
    let p := pitchScoreRaw inp.f0 inp.currentTime rd
    let r := rhythmRaw inp.currentTime inp.beats
    let e := energyScoreRaw inp.energy
    let total := (p * (6/10) + r.2.1 * (25/100) + e * (1/10) + inp.motionScore * (5/100)) * 100
    some
      { pitch := inp.f0
        confidence := inp.confidence
        energy := inp.energy
        pitchScore := p * 100
        rhythmScore := r.2.1 * 100
        energyScore := e * 100
        totalScore := total
        onBeat := r.1
        timingErr := r.2.2 * 100
        combo := if r.1 then inp.statsCombo + 1 else 0 }
  | _, _ => none

/-- The combo popup of `draw` (LiveHUD.jsx line 414) renders exactly when
`stats.combo > 5`. -/
def comboPopupShown (combo : ℚ) : Bool := decide (5 < combo)

/-- The on-beat test `beatPosition >= 0.8 && beatPosition <= 0.2` is
unsatisfiable, so `rhythmRaw` never reports an on-beat frame. -/
theorem rhythmRaw_onBeat_false (t : ℚ) (beats : List ℚ) : (rhythmRaw t beats).1 = false := by
  unfold rhythmRaw
  split
  · rfl
  · split
    · dsimp only
      split
      · rename_i h
        exact absurd h (by intro hc; linarith [hc.1, hc.2])
      · rfl
    · rfl

/-- C4: For every frame evaluated by `calculateScoringMetrics`, the returned
`onBeat` flag is `false` — the on-beat test requires the beat position to be
at least `0.8` and at most `0.2` at once — and consequently the `combo`
counter the scorer computes is `0` on every frame. -/
theorem onBeat_never_true_combo_always_zero (inp : ScorerInput) :
    (calculateScoringMetrics inp).map ScoredStats.onBeat
        = (calculateScoringMetrics inp).map (fun _ => false) ∧
      (calculateScoringMetrics inp).map ScoredStats.combo
        = (calculateScoringMetrics inp).map (fun _ => (0 : ℚ)) := by
  rcases hr : inp.referenceData with _ | rd
  · simp [calculateScoringMetrics, hr]
  · rcases hs : inp.scoringEnabled
    · simp [calculateScoringMetrics, hr, hs]
    · simp [calculateScoringMetrics, hr, hs, rhythmRaw_onBeat_false]

/-- A concrete scored frame: reference pitch 220 Hz at frame 0, detected
f0 220 Hz, energy 0.5, no beats, no motion. -/
def inpC1 : ScorerInput :=
  { f0 := 220, energy := 1/2, confidence := 4/5, currentTime := 0,
    referenceData := some ⟨512, 22050, [220]⟩, scoringEnabled := true,
    beats := [], statsCombo := 0, motionScore := 0 }

/-- C1 counterexample: on a live frame scored with reference data loaded,
with perfect pitch (sub-score 100) and maximal energy (sub-score 100), the
combined score is `70`, not the `0.7·pitch + 0.3·energy = 100` the claimed
70%/30% weighting would give: the code weighs 60% pitch, 25% rhythm,
10% energy and 5% motion. -/
theorem totalScore_seventy_thirty_refuted :
    (calculateScoringMetrics inpC1).map ScoredStats.totalScore = some 70 ∧
      (calculateScoringMetrics inpC1).map
          (fun s => 7/10 * s.pitchScore + 3/10 * s.energyScore) = some 100 ∧
      (70 : ℚ) ≠ 100 := by
  refine ⟨?_, ?_, by norm_num⟩ <;>
    · simp only [calculateScoringMetrics, inpC1, pitchScoreRaw, frameIndexOf, refPitchAt,
        effHopLength, effSampleRate, rhythmRaw, energyScoreRaw, truthyQ, Option.map_some]
      norm_num

/-- C1 amended: for every frame scored with reference data loaded, the
combined frame score is the weighted sum
`0.6·pitch_score + 0.25·rhythm_score + 0.1·energy_score + 0.05·motion_score`
(on the 0–100 scale: `5·motionScore`, since the motion score is not
rescaled by 100). -/
theorem totalScore_weighted_sum_60_25_10_5 (inp : ScorerInput) :
    (calculateScoringMetrics inp).map ScoredStats.totalScore
      = (calculateScoringMetrics inp).map
          (fun s => 6/10 * s.pitchScore + 25/100 * s.rhythmScore
            + 1/10 * s.energyScore + 5 * inp.motionScore) := by
  rcases hr : inp.referenceData with _ | rd
  · simp [calculateScoringMetrics, hr]
  · rcases hs : inp.scoringEnabled
    · simp [calculateScoringMetrics, hr, hs]
    · simp only [calculateScoringMetrics, hr, hs, Option.map_some]
      exact congrArg some (by ring)

/-- A scored frame sung exactly one octave above the reference: reference
pitch 220 Hz at frame 0, detected f0 440 Hz. -/
def inpC2 : ScorerInput :=
  { f0 := 440, energy := 1/2, confidence := 4/5, currentTime := 0,
    referenceData := some ⟨512, 22050, [220]⟩, scoringEnabled := true,
    beats := [], statsCombo := 0, motionScore := 0 }

/-- C2 counterexample: with detected f0 exactly twice the reference pitch —
a cents error of exactly 1200, which the claimed key-shift-forgiveness rule
scores as a 0-cent error, i.e. pitch score 1.0 (100 on the emitted scale) —
the code returns pitch score `0`: the scoring is linear in the relative
frequency error `|f0 − ref| / ref`, not cents-based, and no octave is
forgiven. -/
theorem pitchScore_octave_not_forgiven :
    (calculateScoringMetrics inpC2).map ScoredStats.pitchScore = some 0 ∧
      inpC2.f0 = 2 * 220 ∧ ((0 : ℚ) ≠ 100) := by
  refine ⟨?_, by simp only [inpC2]; norm_num, by norm_num⟩
  simp only [calculateScoringMetrics, inpC2, pitchScoreRaw, frameIndexOf, refPitchAt,
    effHopLength, effSampleRate, Option.map_some]
  norm_num

/-- C2 amended: when the frame index is in range and both the detected f0
and the reference pitch at the frame are positive, the pitch score is the
linear clamp `max 0 (1 − 2·|f0 − ref| / ref)` of the relative frequency
error (scaled by 100) — not a cents-based tier curve — and it reaches the
maximum exactly when `f0` equals the reference pitch, so neither octave
errors nor any nonzero error is forgiven. -/
theorem pitchScore_linear_relative_error (inp : ScorerInput) (rd : RefData)
    (href : inp.referenceData = some rd) (hen : inp.scoringEnabled = true)
    (hf0 : 0 < inp.f0) (hrp : 0 < refPitchAt rd inp.currentTime)
    (hidx : frameIndexOf inp.currentTime rd < (rd.refPitchHz.length : ℤ)) :
    (calculateScoringMetrics inp).map ScoredStats.pitchScore
        = some (100 * max 0 (1 - 2 * (|inp.f0 - refPitchAt rd inp.currentTime|
            / refPitchAt rd inp.currentTime))) ∧
      ((calculateScoringMetrics inp).map ScoredStats.pitchScore = some 100
        ↔ inp.f0 = refPitchAt rd inp.currentTime) := by
  have hscore : pitchScoreRaw inp.f0 inp.currentTime rd
      = max 0 (1 - |inp.f0 - refPitchAt rd inp.currentTime| / refPitchAt rd inp.currentTime * 2) := by
    unfold pitchScoreRaw
    rw [if_pos ⟨hidx, hf0⟩, if_pos hrp]
  have hmap : (calculateScoringMetrics inp).map ScoredStats.pitchScore
      = some (pitchScoreRaw inp.f0 inp.currentTime rd * 100) := by
    simp [calculateScoringMetrics, href, hen]
  set rp := refPitchAt rd inp.currentTime with hrpdef
  constructor
  · rw [hmap, hscore]
    exact congrArg some (by ring_nf)
  · rw [hmap, hscore]
    have hq : 0 ≤ |inp.f0 - rp| / rp := div_nonneg (abs_nonneg _) hrp.le
    constructor
    · intro h
      have h100 : max 0 (1 - |inp.f0 - rp| / rp * 2) * 100 = 100 := by
        exact Option.some_injective ℚ h
      have hmax : max 0 (1 - |inp.f0 - rp| / rp * 2) = 1 := by linarith
      have hzero : |inp.f0 - rp| / rp = 0 := by
        rcases max_choice 0 (1 - |inp.f0 - rp| / rp * 2) with hc | hc <;> rw [hc] at hmax <;>
          linarith
      rcases div_eq_zero_iff.mp hzero with h0 | h0
      · exact sub_eq_zero.mp (abs_eq_zero.mp h0)
      · exact absurd h0 (ne_of_gt hrp)
    · intro h
      rw [h]
      simp

/-- C2 witness instance: a frame sung exactly at the 220 Hz reference. -/
def inpC2w : ScorerInput :=
  { f0 := 220, energy := 1/2, confidence := 4/5, currentTime := 0,
    referenceData := some ⟨512, 22050, [220]⟩, scoringEnabled := true,
    beats := [], statsCombo := 0, motionScore := 0 }

/-- Witness for the amended C2 claim at a concrete perfectly-sung frame. -/
theorem pitchScore_linear_relative_error_witness :
    (calculateScoringMetrics inpC2w).map ScoredStats.pitchScore
        = some (100 * max 0 (1 - 2 * (|inpC2w.f0 - refPitchAt ⟨512, 22050, [220]⟩ inpC2w.currentTime|
            / refPitchAt ⟨512, 22050, [220]⟩ inpC2w.currentTime))) ∧
      ((calculateScoringMetrics inpC2w).map ScoredStats.pitchScore = some 100
        ↔ inpC2w.f0 = refPitchAt ⟨512, 22050, [220]⟩ inpC2w.currentTime) :=
  pitchScore_linear_relative_error inpC2w ⟨512, 22050, [220]⟩ rfl rfl (by norm_num [inpC2w])
    (by norm_num [refPitchAt, frameIndexOf, effHopLength, effSampleRate, inpC2w])
    (by norm_num [frameIndexOf, effHopLength, effSampleRate, inpC2w])

/-- A frame with the maximal combined score 100: perfect pitch against the
reference, midway between two beats (rhythm score 1 without being
"on beat"), full energy and full motion score. `c` is the previous combo
value held in `stats.combo`. -/
def inpC3 (c : ℚ) : ScorerInput :=
  { f0 := 220, energy := 1/2, confidence := 4/5, currentTime := 1/5,
    referenceData := some ⟨1000, 1, [220]⟩, scoringEnabled := true,
    beats := [1/10, 3/10], statsCombo := c, motionScore := 1 }

/-- The combo value after `n` consecutive frames of `inpC3`, each fed the
previous frame's combo as `stats.combo`. -/
def comboIterC3 : ℕ → ℚ
  | 0 => 0
  | n + 1 => (((calculateScoringMetrics (inpC3 (comboIterC3 n))).map ScoredStats.combo).getD 0)

/-- C3 counterexample: a frame with the maximal combined score 100 — above
any "good" threshold — still resets the scorer's combo to 0 (the combo is
keyed on the `onBeat` flag, never on the combined score), so five
consecutive such frames leave the streak at 0 and combo never activates,
contradicting both halves of the claim. -/
theorem combo_five_good_frames_no_activation :
    (calculateScoringMetrics (inpC3 3)).map ScoredStats.totalScore = some 100 ∧
      (calculateScoringMetrics (inpC3 3)).map ScoredStats.combo = some 0 ∧
      comboIterC3 5 = 0 ∧ ¬ (5 : ℚ) ≤ comboIterC3 5 := by
  have heval : ∀ c : ℚ, calculateScoringMetrics (inpC3 c)
      = some
        { pitch := 220, confidence := 4/5, energy := 1/2, pitchScore := 100,
          rhythmScore := 100, energyScore := 100, totalScore := 100,
          onBeat := false, timingErr := 0, combo := 0 } := by
    intro c
    have hrhythm : rhythmRaw (1/5 : ℚ) [1/10, 3/10] = (false, 1, 0) := by
      norm_num [rhythmRaw, truthyQ, List.find?, List.filter, List.getLast?, List.cons_ne_nil]
    norm_num [calculateScoringMetrics, inpC3, pitchScoreRaw, frameIndexOf, refPitchAt,
      effHopLength, effSampleRate, energyScoreRaw, hrhythm]
  have hiter : comboIterC3 5 = 0 := by
    simp [comboIterC3, heval]
  refine ⟨by rw [heval]; rfl, by rw [heval]; rfl, hiter, by rw [hiter]; norm_num⟩

/-- C3 amended: a frame increments the combo streak exactly when its
`onBeat` flag is true — the combined score and any "good" threshold are
never consulted — the streak resets to 0 on any frame that is not on-beat,
and the combo popup of `draw` activates only when the combo strictly
exceeds 5: a combo of exactly 5 does not activate it, 6 does. (Since the
scorer's on-beat test is unsatisfiable, the scorer-computed streak in fact
never advances.) -/
theorem combo_onBeat_rule (inp : ScorerInput) :
    (calculateScoringMetrics inp).map ScoredStats.combo
        = (calculateScoringMetrics inp).map
            (fun s => if s.onBeat then inp.statsCombo + 1 else 0) ∧
      comboPopupShown 5 = false ∧ comboPopupShown 6 = true := by
  refine ⟨?_, by norm_num [comboPopupShown], by norm_num [comboPopupShown]⟩
  rcases hr : inp.referenceData with _ | rd
  · simp [calculateScoringMetrics, hr]
  · rcases hs : inp.scoringEnabled
    · simp [calculateScoringMetrics, hr, hs]
    · simp [calculateScoringMetrics, hr, hs]

/-- A quiet frame: detected energy 0.1. Against any reference loudness
equal to it (0 dB error, inside any ±6 dB window) the claim would demand a
full energy score. -/
def inpC5a : ScorerInput :=
  { f0 := 220, energy := 1/10, confidence := 4/5, currentTime := 0,
    referenceData := some ⟨512, 22050, [220]⟩, scoringEnabled := true,
    beats := [], statsCombo := 0, motionScore := 0 }

/-- The same quiet frame against an entirely different reference document. -/
def inpC5b : ScorerInput :=
  { f0 := 220, energy := 1/10, confidence := 4/5, currentTime := 0,
    referenceData := some ⟨2048, 48000, [110, 110, 110]⟩, scoringEnabled := true,
    beats := [], statsCombo := 0, motionScore := 0 }

/-- A shouted frame: detected energy 5, tens of dB above any plausible
reference loudness. -/
def inpC5c : ScorerInput :=
  { f0 := 220, energy := 5, confidence := 4/5, currentTime := 0,
    referenceData := some ⟨512, 22050, [220]⟩, scoringEnabled := true,
    beats := [], statsCombo := 0, motionScore := 0 }

/-- C5 counterexample: the energy score never compares the detected
loudness to a reference loudness — the reference document holds none and
the score is the same for any reference data (the quiet 0.1-energy frame
scores 20 under either reference), while a frame shouted far above any
reference scores the full 100: there is no ±6 dB tolerance window, only a
fixed normalization of the detected energy. -/
theorem energyScore_ignores_reference_loudness :
    (calculateScoringMetrics inpC5a).map ScoredStats.energyScore = some 20 ∧
      (calculateScoringMetrics inpC5b).map ScoredStats.energyScore = some 20 ∧
      (calculateScoringMetrics inpC5c).map ScoredStats.energyScore = some 100 ∧
      (20 : ℚ) ≠ 100 := by
  refine ⟨?_, ?_, ?_, by norm_num⟩ <;>
    · simp only [calculateScoringMetrics, inpC5a, inpC5b, inpC5c, energyScoreRaw,
        Option.map_some]
      norm_num

/-- C5 amended: the energy score is `min(energy / 0.5, 1) · 100`, a
normalization of the detected loudness alone against a fixed 0.5 RMS
ceiling — the reference loudness is never consulted — and it is clamped at
the fixed maximum 100 however loud the singer is (`min s 100 = s`). -/
theorem energyScore_detected_only_capped (inp : ScorerInput) :
    (calculateScoringMetrics inp).map ScoredStats.energyScore
        = (calculateScoringMetrics inp).map (fun s => 100 * min (s.energy / (1/2)) 1) ∧
      (calculateScoringMetrics inp).map (fun s => min s.energyScore 100)
        = (calculateScoringMetrics inp).map ScoredStats.energyScore := by
  rcases hr : inp.referenceData with _ | rd
  · simp [calculateScoringMetrics, hr]
  · rcases hs : inp.scoringEnabled
    · simp [calculateScoringMetrics, hr, hs]
    · constructor
      · simp only [calculateScoringMetrics, hr, hs, Option.map_some]
        exact congrArg some (by unfold energyScoreRaw; ring)
      · simp only [calculateScoringMetrics, hr, hs, Option.map_some]
        refine congrArg some ?_
        have hle : energyScoreRaw inp.energy * 100 ≤ 100 := by
          have : energyScoreRaw inp.energy ≤ 1 := min_le_right _ _
          nlinarith
        exact min_eq_left hle

/-! ## Session lifecycle (LiveHUD.jsx: handleAudioData, stopSession, calculateFinalResults) -/

/-- One entry of `sessionData`: the `frameData` object built in
`handleAudioData` — `{ time, f0, energy, confidence, ...newStats }`.
On the non-scoring path the spread adds no score fields; a `0` (and
`onBeat = false`) stands for the absent fields there. -/
structure FrameData where
  time : ℚ
  f0 : ℚ
  energy : ℚ
  confidence : ℚ
  pitch : ℚ
  pitchScore : ℚ
  rhythmScore : ℚ
  energyScore : ℚ
  totalScore : ℚ
  onBeat : Bool
  timingErr : ℚ
  combo : ℚ
deriving DecidableEq

/-- The `frameData` record when the scorer returned a full result. -/
def frameFromScored (t f0 energy confidence : ℚ) (s : ScoredStats) : FrameData :=
  { time := t, f0 := f0, energy := energy, confidence := confidence,
    pitch := s.pitch, pitchScore := s.pitchScore, rhythmScore := s.rhythmScore,
    energyScore := s.energyScore, totalScore := s.totalScore, onBeat := s.onBeat,
    timingErr := s.timingErr, combo := s.combo }

/-- The `frameData` record on the non-scoring path (the returned object has
only `pitch`, `confidence`, `energy`). -/
def frameFromPassthrough (t f0 energy confidence : ℚ) : FrameData :=
  { time := t, f0 := f0, energy := energy, confidence := confidence,
    pitch := f0, pitchScore := 0, rhythmScore := 0, energyScore := 0,
    totalScore := 0, onBeat := false, timingErr := 0, combo := 0 }

/-- The component state the session lifecycle touches: the `isRecording`
flag and the append-only `sessionData` list. -/
structure SessionState where
  isRecording : Bool
  sessionData : List FrameData

/-- `handleAudioData` on a `'frame'` message: it computes the scoring
metrics and appends the frame via
`setSessionData(prev => [...prev, frameData])`. It reads neither
`isRecording` nor `sessionStarted`: every delivered frame is appended. -/
def handleAudioData (st : SessionState) (inp : ScorerInput) : SessionState :=
  let fr :=
    match calculateScoringMetrics inp with
    | some s => frameFromScored inp.currentTime inp.f0 inp.energy inp.confidence s
    | none => frameFromPassthrough inp.currentTime inp.f0 inp.energy inp.confidence
  { st with sessionData := st.sessionData ++ [fr] }

/-- `stopSession`: `setIsRecording(false)` then `calculateFinalResults()`;
the recorded trace itself is not modified. -/
def stopSession (st : SessionState) : SessionState :=
  { st with isRecording := false }

/-- C6: evaluation at the failing input. A `'frame'` message delivered
after `stopSession` is still appended to the session's performance trace —
`handleAudioData` never consults `isRecording` — so audio arriving after
the stop is recorded, against the spec's "no new audio frames should be
accepted after stop". -/
theorem post_stop_frame_still_recorded :
    (handleAudioData (stopSession ⟨true, []⟩) inpC1).sessionData.length = 1 ∧
      (stopSession (⟨true, []⟩ : SessionState)).isRecording = false := by
  constructor
  · simp [handleAudioData, stopSession]
  · rfl

/-- One phrase interval of `referenceData.phrases`. -/
structure PhraseInterval where
  start : ℚ
  «end» : ℚ

/-- One entry of the per-phrase results. -/
structure PhraseResult where
  phrase : ℕ
  start : ℚ
  «end» : ℚ
  pitchScore : ℚ
  rhythmScore : ℚ
  energyScore : ℚ
  totalScore : ℚ

/-- The `totals` block of the session results. -/
structure SessionTotals where
  total : ℚ
  pitch : ℚ
  rhythm : ℚ
  energy : ℚ
  motion : ℚ

/-- The results object passed to `onSessionComplete`. -/
structure SessionResults where
  totals : SessionTotals
  perPhrase : List PhraseResult
  badges : List String
  pitchTimeline : List (ℚ × ℚ × ℚ)
  energyGraph : List (ℚ × ℚ)
  rhythmHeatmap : List (ℚ × Bool × ℚ)

/-- Mean of a per-frame quantity, `data.reduce((sum, f) => sum + g f, 0) / data.length`. -/
def avgBy (data : List FrameData) (g : FrameData → ℚ) : ℚ :=
  (data.map g).sum / data.length

/-- `calculateBadges`: the four badge conditions of LiveHUD.jsx. -/
def calculateBadges (data : List FrameData) : List String :=
  let maxCombo :=
    (data.foldl
      (fun (p : ℚ × ℚ) f => if f.onBeat then (max p.1 (p.2 + 1), p.2 + 1) else (p.1, 0))
      (0, 0)).1
  (if 10 ≤ maxCombo then ["Combo King"] else []) ++
    (if 80 ≤ avgBy data (·.rhythmScore) then ["On-Beat Bandit"] else []) ++
    (if 3/10 ≤ avgBy data (·.energy) then ["Mic Melter"] else []) ++
    (if 85 ≤ avgBy data (·.pitchScore) then ["Smooth Operator"] else [])

/-- `calculateFinalResults`: `none` models the early return on an empty
`sessionData` (no results object is built and `onSessionComplete` is not
called); otherwise phrase averages, badges, totals and the graph series are
assembled. -/
def calculateFinalResults (sessionData : List FrameData) (phrases : List PhraseInterval)
    (motionScore : ℚ) : Option SessionResults :=
  if sessionData.length = 0 then none
  else
    let phraseResults := sessionData |> fun sd =>
      (phrases.enum).filterMap fun ip =>
        let pd := sd.filter fun f => decide (ip.2.start ≤ f.time) && decide (f.time ≤ ip.2.«end»)
        if pd.length = 0 then none
        else
          some
            { phrase := ip.1, start := ip.2.start, «end» := ip.2.«end»,
              pitchScore := avgBy pd (·.pitchScore), rhythmScore := avgBy pd (·.rhythmScore),
              energyScore := avgBy pd (·.energyScore),
              totalScore := avgBy pd (·.pitchScore) * (6/10)
                + avgBy pd (·.rhythmScore) * (25/100) + avgBy pd (·.energyScore) * (1/10) }
    some
      { totals :=
          { total := avgBy sessionData (·.totalScore), pitch := avgBy sessionData (·.pitchScore),
            rhythm := avgBy sessionData (·.rhythmScore), energy := avgBy sessionData (·.energyScore),
            motion := motionScore },
        perPhrase := phraseResults,
        badges := calculateBadges sessionData,
        pitchTimeline := sessionData.map fun f => (f.time, f.pitch, f.pitchScore),
        energyGraph := sessionData.map fun f => (f.time, f.energy),
        rhythmHeatmap := sessionData.map fun f => (f.time, f.onBeat, f.timingErr) }

/-- Whether `onSessionComplete` fires: it is invoked exactly on the path
that builds a results object. -/
def sessionCompleteEmitted (sessionData : List FrameData) (phrases : List PhraseInterval)
    (motionScore : ℚ) : Bool :=
  (calculateFinalResults sessionData phrases motionScore).isSome

/-- C9: stopping a session with an empty performance trace makes
`calculateFinalResults` return without computing anything, the
session-complete callback is never invoked, and any published result can
only come from a non-empty trace (so the per-frame averages never divide
by zero). -/
theorem finalResults_empty_none (phrases : List PhraseInterval) (motionScore : ℚ) :
    calculateFinalResults [] phrases motionScore = none ∧
      sessionCompleteEmitted [] phrases motionScore = false ∧
      ∀ d r, calculateFinalResults d phrases motionScore = some r → d.length ≠ 0 := by
  refine ⟨by simp [calculateFinalResults], by simp [sessionCompleteEmitted, calculateFinalResults], ?_⟩
  intro d r h hlen
  rw [calculateFinalResults, if_pos hlen] at h
  exact Option.noConfusion h

/-! ## Upload validation (src/frontend/src/components/SongUpload.jsx, handleFileSelect) -/

/-- The file object `handleFileSelect` inspects: its MIME type and size in
bytes. -/
structure UploadFile where
  type : String
  size : ℕ
deriving DecidableEq

/-- What `handleFileSelect` does with a selection: nothing (no file),
reject with an alert before any network activity, or hand the file to
`uploadFile`. -/
inductive UploadOutcome where
  | ignored : UploadOutcome
  | rejected : UploadOutcome
  | uploadStarted : UploadFile → UploadOutcome
deriving DecidableEq

/-- The `allowedTypes` list of SongUpload.jsx. -/
def allowedTypes : List String := ["audio/mpeg", "audio/wav", "audio/mp3", "audio/x-wav"]

/-- The 50 MB limit, `50 * 1024 * 1024` bytes. -/
def maxUploadBytes : ℕ := 50 * 1024 * 1024

/-- `handleFileSelect`: no file → return; disallowed MIME type → alert and
return; size over the limit → alert and return; otherwise `uploadFile`
(the only branch that touches the upload state and issues the network
request). -/
def handleFileSelect : Option UploadFile → UploadOutcome
  | none => .ignored
  | some f =>
    if f.type ∈ allowedTypes then
      if maxUploadBytes < f.size then .rejected else .uploadStarted f
    else .rejected

/-- Only `uploadFile` fetches `/upload`. -/
def performsNetworkRequest : UploadOutcome → Bool
  | .uploadStarted _ => true
  | _ => false

/-- Only `uploadFile` mutates `isUploading` / `uploadProgress`. -/
def touchesUploadState : UploadOutcome → Bool
  | .uploadStarted _ => true
  | _ => false

/-- C10: a selected file whose MIME type is not among the allowed audio
types, or whose size exceeds 50 MB, is rejected client-side: no network
request is made and the upload state is left unchanged. -/
theorem handleFileSelect_rejects_invalid (f : UploadFile)
    (h : f.type ∉ allowedTypes ∨ maxUploadBytes < f.size) :
    handleFileSelect (some f) = .rejected ∧
      performsNetworkRequest (handleFileSelect (some f)) = false ∧
      touchesUploadState (handleFileSelect (some f)) = false := by
  have hr : handleFileSelect (some f) = .rejected := by
    rcases h with h | h
    · simp [handleFileSelect, h]
    · rcases em (f.type ∈ allowedTypes) with ht | ht
      · simp [handleFileSelect, ht, h]
      · simp [handleFileSelect, ht]
  exact ⟨hr, by rw [hr]; rfl, by rw [hr]; rfl⟩

/-- Witness for C10: a 10-byte `text/plain` file is rejected. -/
theorem handleFileSelect_rejects_invalid_witness :
    handleFileSelect (some ⟨"text/plain", 10⟩) = .rejected ∧
      performsNetworkRequest (handleFileSelect (some ⟨"text/plain", 10⟩)) = false ∧
      touchesUploadState (handleFileSelect (some ⟨"text/plain", 10⟩)) = false :=
  handleFileSelect_rejects_invalid ⟨"text/plain", 10⟩ (Or.inl (by decide))

/-! ## Pitch/energy worklet (src/unnamed/part_000, PitchEnergyProcessor) -/

/-- The raw autocorrelation at a lag:
`for (let i=0; i<n-lag; i++) sum += buf[i]*buf[i+lag]`. -/
def acf (buf : List ℚ) (lag : ℕ) : ℚ :=
  (List.zipWith (· * ·) buf (buf.drop lag)).sum

/-- One iteration of the lag loop: `if (sum>best) { best=sum; bestLag=lag; }`;
the accumulator is `(bestLag, best)`, initially `(-1, 0)`. -/
def pitchStep (buf : List ℚ) (p : ℤ × ℚ) (lag : ℕ) : ℤ × ℚ :=
  if p.2 < acf buf lag then ((lag : ℤ), acf buf lag) else p

/-- The lags the loop visits: `minLag = Math.floor(sr/1000)` (≈1 kHz
ceiling) up to but excluding `maxLag = Math.floor(sr/60)` (≈60 Hz floor). -/
def lagRange (sr : ℕ) : List ℕ := List.range' (sr / 1000) (sr / 60 - sr / 1000)

/-- The `(bestLag, best)` pair after the whole loop. -/
def bestLagOf (buf : List ℚ) (sr : ℕ) : ℤ × ℚ :=
  (lagRange sr).foldl (pitchStep buf) (-1, 0)

/-- `estimatePitch`: `sr / bestLag` when a lag with positive autocorrelation
was selected, `0` otherwise. -/
def estimatePitch (buf : List ℚ) (sr : ℕ) : ℚ :=
  let b := bestLagOf buf sr
  if 0 < b.1 then (sr : ℚ) / (b.1 : ℚ) else 0

/-- The confidence posted with each frame message:
`confidence: f0>0?0.8:0.2`. -/
def frameConfidence (f0 : ℚ) : ℚ := if 0 < f0 then 4/5 else 1/5

/-- Unfolding of `estimatePitch` through its `let`. -/
theorem estimatePitch_eq (buf : List ℚ) (sr : ℕ) :
    estimatePitch buf sr
      = if 0 < (bestLagOf buf sr).1 then (sr : ℚ) / ((bestLagOf buf sr).1 : ℚ) else 0 := rfl

/-- Loop invariant of the lag search: the running best never decreases,
dominates every visited lag's autocorrelation, and is either untouched or a
visited lag's value that strictly improved on the start. -/
theorem foldl_pitchStep_spec (buf : List ℚ) (L : List ℕ) (acc : ℤ × ℚ) :
    acc.2 ≤ (L.foldl (pitchStep buf) acc).2 ∧
      (∀ lag ∈ L, acf buf lag ≤ (L.foldl (pitchStep buf) acc).2) ∧
      (L.foldl (pitchStep buf) acc = acc ∨
        ∃ lag ∈ L, (L.foldl (pitchStep buf) acc).1 = (lag : ℤ) ∧
          (L.foldl (pitchStep buf) acc).2 = acf buf lag ∧ acc.2 < acf buf lag) := by
  induction L generalizing acc with
  | nil => exact ⟨le_refl _, by simp, Or.inl rfl⟩
  | cons a L ih =>
    rcases em (acc.2 < acf buf a) with h | h
    · have hstep : pitchStep buf acc a = ((a : ℤ), acf buf a) := by
        unfold pitchStep; rw [if_pos h]
      have hfold : (a :: L).foldl (pitchStep buf) acc
          = L.foldl (pitchStep buf) ((a : ℤ), acf buf a) := by
        rw [List.foldl_cons, hstep]
      obtain ⟨h1, h2, h3⟩ := ih ((a : ℤ), acf buf a)
      refine ⟨?_, ?_, ?_⟩
      · rw [hfold]; exact le_of_lt (lt_of_lt_of_le h h1)
      · rw [hfold]
        intro lag hlag
        rcases List.mem_cons.mp hlag with rfl | hlag
        · exact h1
        · exact h2 lag hlag
      · rw [hfold]
        rcases h3 with h3 | ⟨lag, hlag, hl1, hl2, hl3⟩
        · exact Or.inr ⟨a, List.mem_cons_self a L, by rw [h3], by rw [h3], h⟩
        · exact Or.inr ⟨lag, List.mem_cons_of_mem a hlag, hl1, hl2, lt_trans h hl3⟩
    · have hstep : pitchStep buf acc a = acc := by
        unfold pitchStep; rw [if_neg h]
      have hfold : (a :: L).foldl (pitchStep buf) acc = L.foldl (pitchStep buf) acc := by
        rw [List.foldl_cons, hstep]
      obtain ⟨h1, h2, h3⟩ := ih acc
      refine ⟨by rw [hfold]; exact h1, ?_, ?_⟩
      · rw [hfold]
        intro lag hlag
        rcases List.mem_cons.mp hlag with rfl | hlag
        · exact le_trans (not_lt.mp h) h1
        · exact h2 lag hlag
      · rw [hfold]
        rcases h3 with h3 | ⟨lag, hlag, hl1, hl2, hl3⟩
        · exact Or.inl h3
        · exact Or.inr ⟨lag, List.mem_cons_of_mem a hlag, hl1, hl2, hl3⟩

set_option maxRecDepth 4096 in
/-- C7: a full 2048-sample buffer processed at the 48 kHz reference rate
either yields `f0 = 0` posted with the low confidence 0.2 — exactly when no
lag in the searched range has positive autocorrelation — or yields an f0 in
the plausible vocal range (60, 1000] Hz, equal to `48000 / bestLag` for a
lag in `[48, 800)` whose autocorrelation is positive and maximal over the
whole searched range. -/
theorem estimatePitch_range_or_unvoiced (buf : List ℚ) (_hlen : buf.length = 2048) :
    (estimatePitch buf 48000 = 0 ∧ frameConfidence (estimatePitch buf 48000) = 1/5 ∧
        ∀ lag ∈ lagRange 48000, acf buf lag ≤ 0) ∨
      (60 < estimatePitch buf 48000 ∧ estimatePitch buf 48000 ≤ 1000 ∧
        frameConfidence (estimatePitch buf 48000) = 4/5 ∧
        48 ≤ (bestLagOf buf 48000).1 ∧ (bestLagOf buf 48000).1 < 800 ∧
        estimatePitch buf 48000 = 48000 / ((bestLagOf buf 48000).1 : ℚ) ∧
        0 < acf buf (bestLagOf buf 48000).1.toNat ∧
        ∀ lag ∈ lagRange 48000, acf buf lag ≤ acf buf (bestLagOf buf 48000).1.toNat) := by
  obtain ⟨-, h2, h3⟩ := foldl_pitchStep_spec buf (lagRange 48000) (-1, 0)
  have hbest : bestLagOf buf 48000 = (lagRange 48000).foldl (pitchStep buf) (-1, 0) := rfl
  rcases h3 with h3 | ⟨lag, hlag, hl1, hl2, hl3⟩
  · left
    have hb : bestLagOf buf 48000 = (-1, 0) := by rw [hbest, h3]
    have hf0 : estimatePitch buf 48000 = 0 := by
      rw [estimatePitch_eq, hb]
      norm_num
    refine ⟨hf0, by rw [hf0]; norm_num [frameConfidence], ?_⟩
    intro l hl
    have := h2 l hl
    rw [h3] at this
    exact this
  · right
    have hmem : 48 ≤ lag ∧ lag < 48 + 752 := List.mem_range'_1.mp (by
      have : lagRange 48000 = List.range' 48 752 := by norm_num [lagRange]
      rw [this] at hlag
      exact hlag)
    have hlagpos : (0 : ℤ) < (lag : ℤ) := by exact_mod_cast lt_of_lt_of_le (by norm_num) hmem.1
    have hb1 : (bestLagOf buf 48000).1 = (lag : ℤ) := by rw [hbest]; exact hl1
    have hf0 : estimatePitch buf 48000 = 48000 / ((lag : ℕ) : ℚ) := by
      rw [estimatePitch_eq, hb1, if_pos hlagpos]
      norm_num
    have hlagQpos : (0 : ℚ) < (lag : ℚ) := by exact_mod_cast hlagpos
    have hlo : (60 : ℚ) < 48000 / (lag : ℚ) := by
      rw [lt_div_iff₀ hlagQpos]
      have : (lag : ℚ) < 800 := by exact_mod_cast hmem.2
      linarith
    have hhi : (48000 : ℚ) / (lag : ℚ) ≤ 1000 := by
      rw [div_le_iff₀ hlagQpos]
      have : (48 : ℚ) ≤ (lag : ℚ) := by exact_mod_cast hmem.1
      linarith
    have htoNat : (bestLagOf buf 48000).1.toNat = lag := by rw [hb1]; exact Int.toNat_natCast lag
    have hacf : 0 < acf buf (bestLagOf buf 48000).1.toNat := by
      rw [htoNat]
      exact hl3
    have hlow : 48 ≤ (bestLagOf buf 48000).1 := by
      rw [hb1]
      have : 48 ≤ lag := hmem.1
      exact_mod_cast this
    have hup : (bestLagOf buf 48000).1 < 800 := by
      rw [hb1]
      have : lag < 800 := by omega
      exact_mod_cast this
    have hval : estimatePitch buf 48000 = 48000 / (((bestLagOf buf 48000).1 : ℤ) : ℚ) := by
      rw [hf0, hb1]
      norm_num
    refine ⟨by rw [hf0]; exact hlo, by rw [hf0]; exact hhi, ?_, hlow, hup, hval, hacf, ?_⟩
    · have hpos : 0 < estimatePitch buf 48000 := by rw [hf0]; linarith
      unfold frameConfidence
      rw [if_pos hpos]
    · intro l hl
      have h := h2 l hl
      rw [htoNat]
      exact h.trans (le_of_eq hl2)

/-- A full silent analysis buffer. -/
def silentBuf : List ℚ := List.replicate 2048 0

/-- Witness for C7 on the silent 2048-sample buffer. -/
theorem estimatePitch_range_or_unvoiced_witness :
    silentBuf.length = 2048 ∧
      ((estimatePitch silentBuf 48000 = 0 ∧ frameConfidence (estimatePitch silentBuf 48000) = 1/5 ∧
          ∀ lag ∈ lagRange 48000, acf silentBuf lag ≤ 0) ∨
        (60 < estimatePitch silentBuf 48000 ∧ estimatePitch silentBuf 48000 ≤ 1000 ∧
          frameConfidence (estimatePitch silentBuf 48000) = 4/5 ∧
          48 ≤ (bestLagOf silentBuf 48000).1 ∧ (bestLagOf silentBuf 48000).1 < 800 ∧
          estimatePitch silentBuf 48000 = 48000 / ((bestLagOf silentBuf 48000).1 : ℚ) ∧
          0 < acf silentBuf (bestLagOf silentBuf 48000).1.toNat ∧
          ∀ lag ∈ lagRange 48000, acf silentBuf lag ≤ acf silentBuf (bestLagOf silentBuf 48000).1.toNat)) :=
  ⟨by rw [silentBuf]; exact List.length_replicate 2048 0,
    estimatePitch_range_or_unvoiced silentBuf (by rw [silentBuf]; exact List.length_replicate 2048 0)⟩

/-! ## Echo canceller (NLMS) -/

/-- Modelled from the spec: the repository ships no echo-canceller
implementation under src/ (the live path relies on the browser's built-in
`echoCancellation` constraint), so the NLMS filter of spec §4.4 is embedded
from its words: an adaptive FIR filter holding `weights` and the rolling
`history` of the most recent reference samples, reset to zeros at session
start. -/
structure EchoCancellerState where
  weights : List ℚ
  history : List ℚ

/-- Modelled from the spec: a fresh per-session state for a filter of
length `l` — zero weights, zero reference history (state is reset per
session). -/
def nlmsInit (l : ℕ) : EchoCancellerState :=
  ⟨List.replicate l 0, List.replicate l 0⟩

/-- Modelled from the spec: one NLMS sample step. The prediction is the dot
product of the weights with the most recent `L` reference samples; the
error `mic − prediction` is the voice estimate and the output; each weight
is updated by `step_size * error * reference_sample / (power + epsilon)`
where `power` is the energy of the reference window. -/
def nlmsStep (stepSize eps : ℚ) (st : EchoCancellerState) (refSample micSample : ℚ) :
    EchoCancellerState × ℚ :=
  let hist := (refSample :: st.history).take st.weights.length
  let prediction := (List.zipWith (· * ·) st.weights hist).sum
  let err := micSample - prediction
  let power := (hist.map fun x => x * x).sum
  let w := List.zipWith (fun wi xi => wi + stepSize * err * xi / (power + eps)) st.weights hist
  (⟨w, hist⟩, err)

/-- Modelled from the spec: run the canceller over a stream of
`(reference, microphone)` sample pairs, collecting the voice-estimate
outputs. -/
def nlmsRun (stepSize eps : ℚ) (st : EchoCancellerState) :
    List (ℚ × ℚ) → EchoCancellerState × List ℚ
  | [] => (st, [])
  | (r, m) :: rest =>
    let step := nlmsStep stepSize eps st r m
    let tail := nlmsRun stepSize eps step.1 rest
    (tail.1, step.2 :: tail.2)

/-- A zero-weight, zero-history state absorbs a zero reference sample:
no weight moves and the microphone sample passes through as the output. -/
theorem nlmsStep_zero_ref (stepSize eps : ℚ) (l : ℕ) (mic : ℚ) :
    nlmsStep stepSize eps (nlmsInit l) 0 mic = (nlmsInit l, mic) := by
  have hhist : ((0 : ℚ) :: List.replicate l (0 : ℚ)).take l = List.replicate l (0 : ℚ) := by
    rw [← List.replicate_succ, List.take_replicate]
    congr 1
    omega
  have hzipmul : ∀ n : ℕ, (List.zipWith (· * ·) (List.replicate n (0 : ℚ))
      (List.replicate n (0 : ℚ))).sum = 0 := by
    intro n
    induction n with
    | zero => rfl
    | succ k ihk => simp [List.replicate_succ, ihk]
  have hsq : ∀ n : ℕ, ((List.replicate n (0 : ℚ)).map fun x => x * x).sum = 0 := by
    intro n
    induction n with
    | zero => rfl
    | succ k ihk => simp [List.replicate_succ, ihk]
  have hupd : ∀ n : ℕ, List.zipWith
      (fun wi xi => wi + stepSize * mic * xi / (0 + eps)) (List.replicate n (0 : ℚ))
      (List.replicate n (0 : ℚ)) = List.replicate n (0 : ℚ) := by
    intro n
    induction n with
    | zero => rfl
    | succ k ihk => simp [List.replicate_succ, ihk]
  unfold nlmsStep nlmsInit
  simp only [List.length_replicate, hhist, hzipmul, hsq]
  rw [sub_zero]
  exact Prod.ext (by simp [hupd l]) rfl

/-- C8: spec-modelled NLMS safety property. Feeding an all-zero reference
signal, with a positive `epsilon` guarding the normalized update, never
updates any filter weight over the whole input stream and outputs every
microphone sample unchanged. -/
theorem nlms_zero_reference_no_update (stepSize eps : ℚ) (l : ℕ) (mics : List ℚ)
    (_heps : 0 < eps) :
    (nlmsRun stepSize eps (nlmsInit l) (mics.map fun m => ((0 : ℚ), m))).1.weights
        = (nlmsInit l).weights ∧
      (nlmsRun stepSize eps (nlmsInit l) (mics.map fun m => ((0 : ℚ), m))).2 = mics := by
  have hrun : ∀ ms : List ℚ, nlmsRun stepSize eps (nlmsInit l) (ms.map fun m => ((0 : ℚ), m))
      = (nlmsInit l, ms) := by
    intro ms
    induction ms with
    | nil => rfl
    | cons m ms ihm =>
      simp only [List.map_cons, nlmsRun, nlmsStep_zero_ref stepSize eps l m, ihm]
  rw [hrun mics]
  exact ⟨rfl, rfl⟩

/-- Witness for C8: the default step size 0.01 and a filter of the default
512 taps, epsilon 0.000001, on a two-sample microphone stream. -/
theorem nlms_zero_reference_no_update_witness :
    (0 : ℚ) < 1/1000000 ∧
      ((nlmsRun (1/100) (1/1000000) (nlmsInit 512)
            ([1/2, -1/3].map fun m => ((0 : ℚ), m))).1.weights = (nlmsInit 512).weights ∧
        (nlmsRun (1/100) (1/1000000) (nlmsInit 512)
            ([1/2, -1/3].map fun m => ((0 : ℚ), m))).2 = [1/2, -1/3]) :=
  ⟨by norm_num, nlms_zero_reference_no_update (1/100) (1/1000000) 512 [1/2, -1/3] (by norm_num)⟩

end PitchPerfectly
